import Mathlib

/-!
Verification development for the native frame-processing core of the
Real-Time-Edge-Detection-Viewer repository.

The C++ sources embedded here are
`app/src/main/cpp/native-lib.cpp` (the JNI gateway `processFrameBytes`,
the timing state `lastProcessingTime` and its query `getProcessingTime`)
and `app/src/main/cpp/opencv_processing.cpp` (the helper
`processFrameWithCanny`).

OpenCV primitives invoked by the sources (`cv::cvtColor`,
`cv::GaussianBlur`, `cv::Canny`, `cv::Mat::copyTo`) are embedded as
executable Lean functions following the behaviour of the library calls at
the exact arguments used by the sources.  Machine integers (jint, jsize)
are modelled as `Int` with explicit wrapping modulo 2 ^ 32 where the C++
arithmetic can overflow.  A C++ exception escaping a call is modelled by
`Except.error`; a JNI `nullptr` return is `Option.none`.
-/

namespace EdgeView

/-- Wrap an unbounded integer to the value of a 32-bit signed machine
integer (two-complement), as jint/jsize arithmetic does on overflow. -/
def wrap32 (n : Int) : Int := (n + 2 ^ 31) % 2 ^ 32 - 2 ^ 31

theorem wrap32_eq_of_lt {n : Int} (h0 : 0 ≤ n) (h1 : n < 2 ^ 31) : wrap32 n = n := by
  unfold wrap32
  have : (n + 2 ^ 31) % 2 ^ 32 = n + 2 ^ 31 := Int.emod_eq_of_lt (by omega) (by omega)
  omega

/-- The errors a modelled OpenCV call can throw (cv::Exception). -/
inductive CvErr where
  /-- assertion failure on an empty source matrix -/
  | emptySrc : CvErr
  /-- assertion failure on invalid (negative) matrix dimensions -/
  | badMat : CvErr
deriving DecidableEq, Repr

/-- A cv::Mat of 8-bit elements: row and column counts as stored (jint
values, hence `Int`), a channel count, and the flat row-major byte data. -/
structure Mat where
  rows : Int
  cols : Int
  channels : Nat
  data : List Nat
deriving DecidableEq, Repr

/-- OpenCV fixed-point luma conversion of one pixel:
(R * 4899 + G * 9617 + B * 1868 + 2 ^ 13) >> 14 (the 8U RGB2GRAY path). -/
def lumaRGB (r g b : Nat) : Nat := (r * 4899 + g * 9617 + b * 1868 + 8192) / 16384

/-- Per-pixel data map of cv::cvtColor COLOR_RGBA2GRAY: each 4-byte RGBA
pixel becomes one luma byte (alpha dropped). -/
def rgba2grayData : List Nat → List Nat
  | r :: g :: b :: _a :: rest => lumaRGB r g b :: rgba2grayData rest
  | _ => []

/-- Per-pixel data map of cv::cvtColor COLOR_GRAY2RGBA: each gray byte v
becomes the pixel (v, v, v, 255); the alpha channel is set to the maximum
channel value. -/
def gray2rgbaData : List Nat → List Nat
  | v :: rest => v :: v :: v :: 255 :: gray2rgbaData rest
  | [] => []

/-- Per-pixel data map of cv::cvtColor COLOR_RGBA2BGR: channel reorder,
alpha dropped. -/
def rgba2bgrData : List Nat → List Nat
  | r :: g :: b :: _a :: rest => b :: g :: r :: rgba2bgrData rest
  | _ => []

/-- Per-pixel data map of cv::cvtColor COLOR_BGR2GRAY (same luma weights,
channels read in BGR order). -/
def bgr2grayData : List Nat → List Nat
  | b :: g :: r :: rest => lumaRGB r g b :: bgr2grayData rest
  | _ => []

/-- Per-pixel data map of cv::cvtColor COLOR_GRAY2BGR. -/
def gray2bgrData : List Nat → List Nat
  | v :: rest => v :: v :: v :: gray2bgrData rest
  | [] => []

/-- Per-pixel data map of cv::cvtColor COLOR_BGR2RGBA: channel reorder,
alpha set to 255. -/
def bgr2rgbaData : List Nat → List Nat
  | b :: g :: r :: rest => r :: g :: b :: 255 :: bgr2rgbaData rest
  | _ => []

@[simp] theorem gray2rgbaData_nil : gray2rgbaData [] = [] := rfl

@[simp] theorem gray2rgbaData_cons (v : Nat) (l : List Nat) :
    gray2rgbaData (v :: l) = v :: v :: v :: 255 :: gray2rgbaData l := rfl

theorem gray2rgbaData_length (l : List Nat) :
    (gray2rgbaData l).length = 4 * l.length := by
  induction l with
  | nil => rfl
  | cons v rest ih => simp [ih]; omega

theorem gray2rgbaData_getD (l : List Nat) (i : Nat) (hi : i < l.length) :
    (gray2rgbaData l).getD (4 * i) 0 = l.getD i 0 ∧
    (gray2rgbaData l).getD (4 * i + 1) 0 = l.getD i 0 ∧
    (gray2rgbaData l).getD (4 * i + 2) 0 = l.getD i 0 ∧
    (gray2rgbaData l).getD (4 * i + 3) 0 = 255 := by
  induction l generalizing i with
  | nil => simp at hi
  | cons v rest ih =>
    cases i with
    | zero => simp [List.getD]
    | succ j =>
      have hj : j < rest.length := by simpa using Nat.lt_of_succ_lt_succ hi
      obtain ⟨e0, e1, e2, e3⟩ := ih j hj
      have h4 : 4 * (j + 1) = 4 * j + 4 := by ring
      rw [gray2rgbaData_cons, h4]
      refine ⟨?_, ?_, ?_, ?_⟩ <;> simp only [List.getD_cons_succ] <;>
        first | exact e0 | exact e1 | exact e2 | exact e3

/-- OpenCV borderInterpolate with BORDER_REFLECT_101 (the GaussianBlur
default border): reflect an out-of-range coordinate without repeating the
edge sample.  Two reflection rounds suffice for the radius-2 kernel. -/
def reflect101 (p : Int) (len : Nat) : Nat :=
  if len ≤ 1 then 0
  else
    let q := if p < 0 then -p else if p ≥ len then 2 * (len : Int) - 2 - p else p
    let q2 := if q < 0 then -q else if q ≥ len then 2 * (len : Int) - 2 - q else q
    q2.toNat

/-- The 5-tap Gaussian kernel for sigma 1.5, quantized at 8 bits
(round(w * 256) for the normalized weights), total 257.  OpenCV smooths
8U images with an equivalent fixed-point kernel whose exact rounding can
differ by quantization noise; no theorem below depends on that rounding. -/
def gaussK : List Nat := [31, 60, 75, 60, 31]

/-- One output sample of cv::GaussianBlur(src, dst, Size(5, 5), 1.5):
2-D convolution at (y, x) with reflect-101 borders, normalized by the
squared kernel sum 257 * 257 = 66049 with rounding. -/
def blurAt (rows cols : Nat) (d : List Nat) (y x : Nat) : Nat :=
  let s := (List.range 5).foldl (fun acc i =>
      acc + (List.range 5).foldl (fun acc2 j =>
        acc2 + gaussK.getD i 0 * gaussK.getD j 0 *
          d.getD (reflect101 ((y : Int) + (i : Int) - 2) rows * cols +
                  reflect101 ((x : Int) + (j : Int) - 2) cols) 0) 0) 0
  (s + 33024) / 66049

/-- Data of the blurred single-channel image, row-major. -/
def blurData (rows cols : Nat) (d : List Nat) : List Nat :=
  (List.range (rows * cols)).map (fun t => blurAt rows cols d (t / cols) (t % cols))

/-- Replicate-border pixel read used by the Sobel stage inside cv::Canny
(Sobel is invoked with BORDER_REPLICATE there). -/
def pixR (rows cols : Nat) (d : List Nat) (y x : Int) : Int :=
  let yc := (max 0 (min ((rows : Int) - 1) y)).toNat
  let xc := (max 0 (min ((cols : Int) - 1) x)).toNat
  (d.getD (yc * cols + xc) 0 : Int)

/-- 3x3 Sobel derivative in x at (y, x). -/
def sobelDx (rows cols : Nat) (d : List Nat) (y x : Nat) : Int :=
  (pixR rows cols d ((y : Int) - 1) ((x : Int) + 1)
    + 2 * pixR rows cols d (y : Int) ((x : Int) + 1)
    + pixR rows cols d ((y : Int) + 1) ((x : Int) + 1))
  - (pixR rows cols d ((y : Int) - 1) ((x : Int) - 1)
    + 2 * pixR rows cols d (y : Int) ((x : Int) - 1)
    + pixR rows cols d ((y : Int) + 1) ((x : Int) - 1))

/-- 3x3 Sobel derivative in y at (y, x). -/
def sobelDy (rows cols : Nat) (d : List Nat) (y x : Nat) : Int :=
  (pixR rows cols d ((y : Int) + 1) ((x : Int) - 1)
    + 2 * pixR rows cols d ((y : Int) + 1) (x : Int)
    + pixR rows cols d ((y : Int) + 1) ((x : Int) + 1))
  - (pixR rows cols d ((y : Int) - 1) ((x : Int) - 1)
    + 2 * pixR rows cols d ((y : Int) - 1) (x : Int)
    + pixR rows cols d ((y : Int) - 1) ((x : Int) + 1))

/-- L1 gradient magnitude (cv::Canny default, L2gradient = false). -/
def magAt (rows cols : Nat) (d : List Nat) (y x : Nat) : Nat :=
  (sobelDx rows cols d y x).natAbs + (sobelDy rows cols d y x).natAbs

/-- Gradient magnitude with the zero border cv::Canny pads around the
magnitude buffer. -/
def magB (rows cols : Nat) (d : List Nat) (y x : Int) : Nat :=
  if 0 ≤ y ∧ y < (rows : Int) ∧ 0 ≤ x ∧ x < (cols : Int) then
    magAt rows cols d y.toNat x.toNat
  else 0

/-- Per-pixel classification of cv::Canny before hysteresis: 2 for a
strong edge (magnitude above the high threshold and a directional local
maximum), 1 for a weak candidate (above the low threshold and a local
maximum), 0 otherwise.  Follows the scalar loop of canny.cpp: CANNY_SHIFT
= 15, TG22 = 13573, with its exact strict and non-strict comparisons. -/
def cannyPixClass (low high rows cols : Nat) (d : List Nat) (y x : Nat) : Nat :=
  let m := magAt rows cols d y x
  if m > low then
    let xs := sobelDx rows cols d y x
    let ys := sobelDy rows cols d y x
    let xa := xs.natAbs
    let ya := ys.natAbs * 32768
    let tg22x := xa * 13573
    let keep :=
      if ya < tg22x then
        m > magB rows cols d (y : Int) ((x : Int) - 1) ∧
        m ≥ magB rows cols d (y : Int) ((x : Int) + 1)
      else
        let tg67x := tg22x + xa * 65536
        if ya > tg67x then
          m > magB rows cols d ((y : Int) - 1) (x : Int) ∧
          m ≥ magB rows cols d ((y : Int) + 1) (x : Int)
        else
          let s : Int := if (decide (xs < 0)) != (decide (ys < 0)) then -1 else 1
          m > magB rows cols d ((y : Int) - 1) ((x : Int) - s) ∧
          m > magB rows cols d ((y : Int) + 1) ((x : Int) + s)
    if keep then (if m > high then 2 else 1) else 0
  else 0

/-- Flat list of the per-pixel classifications. -/
def classData (low high rows cols : Nat) (d : List Nat) : List Nat :=
  (List.range (rows * cols)).map
    (fun t => cannyPixClass low high rows cols d (t / cols) (t % cols))

/-- The eight neighbor offsets used by the hysteresis flood fill. -/
def neighbors8 : List (Int × Int) :=
  [(-1, -1), (-1, 0), (-1, 1), (0, -1), (0, 1), (1, -1), (1, 0), (1, 1)]

/-- Whether some 8-neighbor of (y, x) is already marked as an edge. -/
def hasEdgeNb (rows cols : Nat) (edges : List Bool) (y x : Nat) : Bool :=
  neighbors8.any (fun dd =>
    let ny := (y : Int) + dd.1
    let nx := (x : Int) + dd.2
    if 0 ≤ ny ∧ ny < (rows : Int) ∧ 0 ≤ nx ∧ nx < (cols : Int) then
      edges.getD (ny.toNat * cols + nx.toNat) false
    else false)

/-- One propagation round of hysteresis: a weak or strong candidate next
to a marked edge becomes an edge. -/
def hystOnce (rows cols : Nat) (cls : List Nat) (edges : List Bool) : List Bool :=
  (List.range (rows * cols)).map (fun t =>
    edges.getD t false ||
      (decide (1 ≤ cls.getD t 0) && hasEdgeNb rows cols edges (t / cols) (t % cols)))

/-- Iterated propagation; rows * cols rounds reach the closure that the
stack-based flood fill of cv::Canny computes. -/
def hystIter (rows cols : Nat) (cls : List Nat) : Nat → List Bool → List Bool
  | 0, edges => edges
  | n + 1, edges => hystIter rows cols cls n (hystOnce rows cols cls edges)

/-- The initially marked edges: the strong candidates. -/
def strongEdges (rows cols : Nat) (cls : List Nat) : List Bool :=
  (List.range (rows * cols)).map (fun t => decide (cls.getD t 0 = 2))

/-- Data of the binary edge map of cv::Canny(src, dst, low, high): 255 on
the hysteresis closure of the strong candidates, 0 elsewhere. -/
def cannyData (low high rows cols : Nat) (d : List Nat) : List Nat :=
  (hystIter rows cols (classData low high rows cols d) (rows * cols)
      (strongEdges rows cols (classData low high rows cols d))).map
    (fun b => if b then 255 else 0)

theorem cannyData_mem (low high rows cols : Nat) (d : List Nat) (v : Nat)
    (hv : v ∈ cannyData low high rows cols d) : v = 0 ∨ v = 255 := by
  rcases List.mem_map.mp hv with ⟨b, _, rfl⟩
  cases b <;> simp

theorem hystIter_length (rows cols : Nat) (cls : List Nat) :
    ∀ (n : Nat) (e : List Bool), e.length = rows * cols →
      (hystIter rows cols cls n e).length = rows * cols := by
  intro n
  induction n with
  | zero => intro e he; simpa [hystIter] using he
  | succ k ih =>
    intro e _
    simpa [hystIter] using ih (hystOnce rows cols cls e) (by simp [hystOnce])

theorem cannyData_length (low high rows cols : Nat) (d : List Nat) :
    (cannyData low high rows cols d).length = rows * cols := by
  unfold cannyData
  rw [List.length_map]
  exact hystIter_length rows cols _ _ _ (by simp [strongEdges])

/-- cv::cvtColor(src, dst, COLOR_RGBA2GRAY).  Throws (models the
CV_Assert on an empty or invalid source) when the source has no pixels;
otherwise allocates a fresh single-channel destination. -/
def cvtColorRGBA2GRAY (m : Mat) : Except CvErr Mat :=
  if m.rows ≤ 0 ∨ m.cols ≤ 0 then Except.error CvErr.emptySrc
  else Except.ok ⟨m.rows, m.cols, 1, rgba2grayData m.data⟩

/-- cv::cvtColor(src, dst, COLOR_GRAY2RGBA). -/
def cvtColorGRAY2RGBA (m : Mat) : Except CvErr Mat :=
  if m.rows ≤ 0 ∨ m.cols ≤ 0 then Except.error CvErr.emptySrc
  else Except.ok ⟨m.rows, m.cols, 4, gray2rgbaData m.data⟩

/-- cv::cvtColor(src, dst, COLOR_RGBA2BGR). -/
def cvtColorRGBA2BGR (m : Mat) : Except CvErr Mat :=
  if m.rows ≤ 0 ∨ m.cols ≤ 0 then Except.error CvErr.emptySrc
  else Except.ok ⟨m.rows, m.cols, 3, rgba2bgrData m.data⟩

/-- cv::cvtColor(src, dst, COLOR_BGR2GRAY). -/
def cvtColorBGR2GRAY (m : Mat) : Except CvErr Mat :=
  if m.rows ≤ 0 ∨ m.cols ≤ 0 then Except.error CvErr.emptySrc
  else Except.ok ⟨m.rows, m.cols, 1, bgr2grayData m.data⟩

/-- cv::cvtColor(src, dst, COLOR_GRAY2BGR). -/
def cvtColorGRAY2BGR (m : Mat) : Except CvErr Mat :=
  if m.rows ≤ 0 ∨ m.cols ≤ 0 then Except.error CvErr.emptySrc
  else Except.ok ⟨m.rows, m.cols, 3, gray2bgrData m.data⟩

/-- cv::cvtColor(src, dst, COLOR_BGR2RGBA). -/
def cvtColorBGR2RGBA (m : Mat) : Except CvErr Mat :=
  if m.rows ≤ 0 ∨ m.cols ≤ 0 then Except.error CvErr.emptySrc
  else Except.ok ⟨m.rows, m.cols, 4, bgr2rgbaData m.data⟩

/-- cv::GaussianBlur(src, dst, Size(5, 5), 1.5) on a single-channel 8U
image. -/
def gaussianBlur5x5 (m : Mat) : Except CvErr Mat :=
  if m.rows ≤ 0 ∨ m.cols ≤ 0 then Except.error CvErr.emptySrc
  else Except.ok ⟨m.rows, m.cols, 1, blurData m.rows.toNat m.cols.toNat m.data⟩

/-- cv::Canny(src, dst, 50, 150): thresholds are truncated to the
integers 50 and 150 on the 0..255 intensity scale. -/
def cannyOp (m : Mat) : Except CvErr Mat :=
  if m.rows ≤ 0 ∨ m.cols ≤ 0 then Except.error CvErr.emptySrc
  else Except.ok ⟨m.rows, m.cols, 1, cannyData 50 150 m.rows.toNat m.cols.toNat m.data⟩

/-- cv::Mat::copyTo(dst): full deep copy into freshly allocated memory.
Mat::create asserts non-negative dimensions. -/
def copyTo (m : Mat) : Except CvErr Mat :=
  if m.rows < 0 ∨ m.cols < 0 then Except.error CvErr.badMat
  else Except.ok ⟨m.rows, m.cols, m.channels, m.data⟩

/-- STEP 5.1 to STEP 5.4 of processFrameBytes (native-lib.cpp, lines
78-97): grayscale, Gaussian blur, Canny 50/150, gray-to-RGBA.  There is
no try/catch around these calls, so a thrown cv::Exception propagates:
the Except value is returned unhandled. -/
def detectEdgesInline (inputMat : Mat) : Except CvErr Mat :=
  match cvtColorRGBA2GRAY inputMat with
  | Except.error e => Except.error e
  | Except.ok grayMat =>
    match gaussianBlur5x5 grayMat with
    | Except.error e => Except.error e
    | Except.ok blurredMat =>
      match cannyOp blurredMat with
      | Except.error e => Except.error e
      | Except.ok edgesMat => cvtColorGRAY2RGBA edgesMat

/-- The body of the try block of processFrameWithCanny
(opencv_processing.cpp, lines 9-35): the recipe with BGR intermediate
conversions; a thrown cv::Exception is the Except.error value. -/
def cannyRecipeBGR (inputMat : Mat) : Except CvErr Mat :=
  match cvtColorRGBA2BGR inputMat with
  | Except.error e => Except.error e
  | Except.ok bgrMat =>
    match cvtColorBGR2GRAY bgrMat with
    | Except.error e => Except.error e
    | Except.ok grayMat =>
      match gaussianBlur5x5 grayMat with
      | Except.error e => Except.error e
      | Except.ok blurredMat =>
        match cannyOp blurredMat with
        | Except.error e => Except.error e
        | Except.ok edgesMat =>
          match cvtColorGRAY2BGR edgesMat with
          | Except.error e => Except.error e
          | Except.ok edgesBgr => cvtColorBGR2RGBA edgesBgr

/-- processFrameWithCanny (opencv_processing.cpp, lines 8-42): runs the
try block and catches any cv::Exception, falling back to copying the
input to the output ("On error, just copy input to output"). -/
def processFrameWithCanny (inputMat : Mat) : Mat :=
  match cannyRecipeBGR inputMat with
  | Except.ok outputMat => outputMat
  | Except.error _ => ⟨inputMat.rows, inputMat.cols, inputMat.channels, inputMat.data⟩

/-- STEP 1 of processFrameBytes (native-lib.cpp, lines 50-56): the length
check.  expectedLength is computed as jsize arithmetic, wrapping modulo
2 ^ 32; inputLength is the jsize array length.  No positivity check on
width or height is performed. -/
def step1Rejects (imageData : List Nat) (width height : Int) : Bool :=
  wrap32 (imageData.length : Int) != wrap32 (width * height * 4)

/-- STEP 4 of processFrameBytes (native-lib.cpp, lines 68-73): the
defensive re-validation of the constructed Mat. -/
def matCheckFails (m : Mat) (width height : Int) : Bool :=
  m.rows != height || m.cols != width || m.channels != 4

/-- The environment-controlled outcomes of a call: whether
GetByteArrayElements succeeds, whether NewByteArray succeeds, and the
elapsed wall-clock milliseconds the two clock reads measure (the clock is
monotonic, so the duration is a natural number). -/
structure JniEnv where
  getElemsOk : Bool
  newArrayOk : Bool
  elapsedMs : Nat
deriving DecidableEq, Repr

deriving instance DecidableEq for Except

/-- Everything a call to processFrameBytes leaves behind: the value
returned across JNI (`Except.error` models a C++ exception escaping the
function, `Except.ok none` a nullptr return, `Except.ok (some b)` a byte
array), the value of lastProcessingTime after the call, and the content
of the caller-owned input array after the call. -/
structure CallOutcome where
  result : Except CvErr (Option (List Nat))
  timeAfter : Int
  inputAfter : List Nat
deriving DecidableEq, Repr

/-- Java_com_example_edgedetectionviewer_NativeProcessor_processFrameBytes
(native-lib.cpp, lines 38-128).  `lastTime` is the value of the global
lastProcessingTime on entry.  The input array is read through a borrowed
view and released with JNI_ABORT, so its content after the call is the
original `imageData` on every path.  lastProcessingTime is assigned only
on the single success path, after the output has been produced. -/
def processFrameBytes (env : JniEnv) (lastTime : Int) (imageData : List Nat)
    (width height : Int) (applyEdgeDetection : Bool) : CallOutcome :=
  if step1Rejects imageData width height then
    ⟨Except.ok none, lastTime, imageData⟩
  else if env.getElemsOk = false then
    ⟨Except.ok none, lastTime, imageData⟩
  else
    if matCheckFails ⟨height, width, 4, imageData⟩ width height then
      ⟨Except.ok none, lastTime, imageData⟩
    else
      match (if applyEdgeDetection then detectEdgesInline ⟨height, width, 4, imageData⟩
             else copyTo ⟨height, width, 4, imageData⟩) with
      | Except.error e => ⟨Except.error e, lastTime, imageData⟩
      | Except.ok outputMat =>
          if env.newArrayOk = false then
            ⟨Except.ok none, lastTime, imageData⟩
          else
            ⟨Except.ok (some (outputMat.data.take (wrap32 (height * width * 4)).toNat)),
             (env.elapsedMs : Int), imageData⟩

/-- Java_com_example_edgedetectionviewer_NativeProcessor_getProcessingTime
(native-lib.cpp, lines 30-35): returns the global lastProcessingTime and
leaves the state unchanged (returned value, state after). -/
def getProcessingTime (lastTime : Int) : Int × Int := (lastTime, lastTime)

/-- The values the global lastProcessingTime (native-lib.cpp, line 12)
can hold: it is initialized to 0 at load time, and the only write to it
is the one performed by processFrameBytes. -/
inductive ReachableTime : Int → Prop
  | init : ReachableTime 0
  | step (env : JniEnv) (imageData : List Nat) (width height : Int)
      (applyEdgeDetection : Bool) (t : Int) : ReachableTime t →
      ReachableTime (processFrameBytes env t imageData width height applyEdgeDetection).timeAfter

theorem step1Rejects_eq_false (buf : List Nat) (W H : Nat) (hlen : buf.length = W * H * 4) :
    step1Rejects buf (W : Int) (H : Int) = false := by
  have h : ((buf.length : Int)) = (W : Int) * (H : Int) * 4 := by rw [hlen]; push_cast; ring
  simp [step1Rejects, h]

theorem detectEdgesInline_pos (W H : Nat) (buf : List Nat) (hW : 0 < W) (hH : 0 < H) :
    detectEdgesInline ⟨(H : Int), (W : Int), 4, buf⟩ =
      Except.ok ⟨(H : Int), (W : Int), 4,
        gray2rgbaData (cannyData 50 150 H W (blurData H W (rgba2grayData buf)))⟩ := by
  have hg1 : cvtColorRGBA2GRAY ⟨(H : Int), (W : Int), 4, buf⟩ =
      Except.ok ⟨(H : Int), (W : Int), 1, rgba2grayData buf⟩ := by
    simp [cvtColorRGBA2GRAY, hW.ne', hH.ne']
  have hg2 : gaussianBlur5x5 ⟨(H : Int), (W : Int), 1, rgba2grayData buf⟩ =
      Except.ok ⟨(H : Int), (W : Int), 1, blurData H W (rgba2grayData buf)⟩ := by
    simp [gaussianBlur5x5, hW.ne', hH.ne']
  have hg3 : cannyOp ⟨(H : Int), (W : Int), 1, blurData H W (rgba2grayData buf)⟩ =
      Except.ok ⟨(H : Int), (W : Int), 1,
        cannyData 50 150 H W (blurData H W (rgba2grayData buf))⟩ := by
    simp [cannyOp, hW.ne', hH.ne']
  have hg4 : cvtColorGRAY2RGBA ⟨(H : Int), (W : Int), 1,
      cannyData 50 150 H W (blurData H W (rgba2grayData buf))⟩ =
      Except.ok ⟨(H : Int), (W : Int), 4,
        gray2rgbaData (cannyData 50 150 H W (blurData H W (rgba2grayData buf)))⟩ := by
    simp [cvtColorGRAY2RGBA, hW.ne', hH.ne']
  rw [detectEdgesInline]
  simp only [hg1, hg2, hg3, hg4]

theorem wrap32_dims (W H : Nat) (hbound : W * H * 4 < 2 ^ 31) :
    (wrap32 ((H : Int) * (W : Int) * 4)).toNat = H * W * 4 := by
  have hc : ((H : Int) * (W : Int) * 4) = ((H * W * 4 : Nat) : Int) := by push_cast; ring
  have hb2 : H * W * 4 < 2 ^ 31 := by
    have := Nat.mul_comm W H
    omega
  rw [hc, wrap32_eq_of_lt (by positivity) (by exact_mod_cast hb2), Int.toNat_natCast]

theorem processFrameBytes_pass (env : JniEnv) (t : Int) (buf : List Nat) (W H : Nat)
    (hW : 0 < W) (hH : 0 < H) (hlen : buf.length = W * H * 4) (hbound : W * H * 4 < 2 ^ 31)
    (hg : env.getElemsOk = true) (hn : env.newArrayOk = true) :
    processFrameBytes env t buf (W : Int) (H : Int) false =
      ⟨Except.ok (some buf), (env.elapsedMs : Int), buf⟩ := by
  have h1 := step1Rejects_eq_false buf W H hlen
  have hmat : matCheckFails ⟨(H : Int), (W : Int), 4, buf⟩ (W : Int) (H : Int) = false := by
    simp [matCheckFails]
  have hcopy : copyTo ⟨(H : Int), (W : Int), 4, buf⟩ =
      Except.ok ⟨(H : Int), (W : Int), 4, buf⟩ := by
    have : ¬ ((H : Int) < 0 ∨ (W : Int) < 0) := by omega
    simp [copyTo, this]
  have htake : buf.take (H * W * 4) = buf := by
    refine List.take_of_length_le ?_
    rw [hlen]
    have := Nat.mul_comm W H
    omega
  simp [processFrameBytes, h1, hg, hmat, hcopy, hn, wrap32_dims W H hbound, htake]

theorem processFrameBytes_edge (env : JniEnv) (t : Int) (buf : List Nat) (W H : Nat)
    (hW : 0 < W) (hH : 0 < H) (hlen : buf.length = W * H * 4) (hbound : W * H * 4 < 2 ^ 31)
    (hg : env.getElemsOk = true) (hn : env.newArrayOk = true) :
    processFrameBytes env t buf (W : Int) (H : Int) true =
      ⟨Except.ok (some (gray2rgbaData
          (cannyData 50 150 H W (blurData H W (rgba2grayData buf))))),
       (env.elapsedMs : Int), buf⟩ := by
  have h1 := step1Rejects_eq_false buf W H hlen
  have hmat : matCheckFails ⟨(H : Int), (W : Int), 4, buf⟩ (W : Int) (H : Int) = false := by
    simp [matCheckFails]
  have hlen2 : (gray2rgbaData
      (cannyData 50 150 H W (blurData H W (rgba2grayData buf)))).length = H * W * 4 := by
    rw [gray2rgbaData_length, cannyData_length]; ring
  have htake : (gray2rgbaData
      (cannyData 50 150 H W (blurData H W (rgba2grayData buf)))).take (H * W * 4) =
      gray2rgbaData (cannyData 50 150 H W (blurData H W (rgba2grayData buf))) :=
    List.take_of_length_le (le_of_eq hlen2)
  simp [processFrameBytes, h1, hg, hmat, detectEdgesInline_pos W H buf hW hH, hn,
    wrap32_dims W H hbound, htake]

theorem processFrameBytes_shape (env : JniEnv) (t : Int) (buf : List Nat)
    (width height : Int) (edge : Bool) :
    (processFrameBytes env t buf width height edge = ⟨Except.ok none, t, buf⟩) ∨
    (∃ e, processFrameBytes env t buf width height edge = ⟨Except.error e, t, buf⟩) ∨
    (env.newArrayOk = true ∧
      ∃ b, processFrameBytes env t buf width height edge =
        ⟨Except.ok (some b), (env.elapsedMs : Int), buf⟩) := by
  unfold processFrameBytes
  repeat' split
  all_goals first
    | exact Or.inl rfl
    | exact Or.inr (Or.inl ⟨_, rfl⟩)
    | (rename_i h; exact Or.inr (Or.inr ⟨by simpa using h, _, rfl⟩))

theorem reachableTime_nonneg {u : Int} (hu : ReachableTime u) : 0 ≤ u := by
  induction hu with
  | init => simp
  | step env imageData width height applyEdgeDetection t _ ih =>
    rcases processFrameBytes_shape env t imageData width height applyEdgeDetection with
      hc | ⟨e, hc⟩ | ⟨_, b, hc⟩ <;> rw [hc] <;> simp [ih]

theorem processFrameBytes_step1 (env : JniEnv) (t : Int) (buf : List Nat)
    (width height : Int) (edge : Bool) (h : step1Rejects buf width height = true) :
    processFrameBytes env t buf width height edge = ⟨Except.ok none, t, buf⟩ := by
  unfold processFrameBytes
  rw [if_pos h]

/-- C1: the claim states that for every input processed with
applyEdgeDetection = true, an internal failure in a recipe step is
recovered inside the transform by falling back to a full copy of the
input, and is never surfaced to the caller.  The code contradicts this:
the recipe reachable from the caller (STEP 5.1-5.4 of processFrameBytes)
has no try/catch, so on width = 0, height = 0 with an empty buffer
(accepted by the length check) the first cvtColor throws and the
exception escapes to the caller; the fallback-to-copy recovery exists
only in processFrameWithCanny, which no code calls. -/
theorem spec_C1 :
    (processFrameBytes ⟨true, true, 5⟩ 3 [] 0 0 true).result =
      Except.error CvErr.emptySrc ∧
    processFrameWithCanny ⟨0, 0, 4, []⟩ = ⟨0, 0, 4, []⟩ :=
  ⟨rfl, rfl⟩

/-- C2: a call that fails — because the buffer length differs from the
computed width * height * 4, or because the output array cannot be
allocated — returns the null sentinel, yields no output buffer, and
leaves the timing state (the value getProcessingTime reads) unchanged. -/
theorem spec_C2 (env : JniEnv) (t : Int) (buf : List Nat)
    (width height : Int) (edge : Bool)
    (hfail : step1Rejects buf width height = true ∨ env.newArrayOk = false) :
    (processFrameBytes env t buf width height edge).timeAfter = t ∧
    (∀ b : List Nat,
      (processFrameBytes env t buf width height edge).result ≠ Except.ok (some b)) ∧
    ((∀ e : CvErr,
        (processFrameBytes env t buf width height edge).result ≠ Except.error e) →
      (processFrameBytes env t buf width height edge).result = Except.ok none) := by
  rcases hfail with h | h
  · rw [processFrameBytes_step1 env t buf width height edge h]
    exact ⟨rfl, by simp, fun _ => rfl⟩
  · rcases processFrameBytes_shape env t buf width height edge with hc | ⟨e, hc⟩ | ⟨hok, b, hc⟩
    · rw [hc]; exact ⟨rfl, by simp, fun _ => rfl⟩
    · rw [hc]; exact ⟨rfl, by simp, fun hne => absurd rfl (hne e)⟩
    · rw [hok] at h; cases h

/-- C2 witness: a 3-byte buffer declared as 1 x 1 is rejected with the
null sentinel and the timing state keeps its previous value 5. -/
theorem spec_C2_w :
    step1Rejects [1, 2, 3] 1 1 = true ∧
    (processFrameBytes ⟨true, true, 9⟩ 5 [1, 2, 3] 1 1 false).timeAfter = 5 ∧
    (processFrameBytes ⟨true, true, 9⟩ 5 [1, 2, 3] 1 1 false).result = Except.ok none :=
  ⟨by decide,
   (spec_C2 ⟨true, true, 9⟩ 5 [1, 2, 3] 1 1 false (Or.inl (by decide))).1,
   (spec_C2 ⟨true, true, 9⟩ 5 [1, 2, 3] 1 1 false (Or.inl (by decide))).2.2
     (fun e => by cases e <;> decide)⟩

/-- C3: for positive dimensions and a buffer of exactly
width * height * 4 bytes, a passthrough call (applyEdgeDetection = false)
returns a buffer with byte content identical to the input, byte for byte
and in the same order. -/
theorem spec_C3 (env : JniEnv) (t : Int) (buf : List Nat) (W H : Nat)
    (hW : 0 < W) (hH : 0 < H) (hlen : buf.length = W * H * 4)
    (hbound : W * H * 4 < 2 ^ 31)
    (hg : env.getElemsOk = true) (hn : env.newArrayOk = true) :
    (processFrameBytes env t buf (W : Int) (H : Int) false).result =
      Except.ok (some buf) := by
  rw [processFrameBytes_pass env t buf W H hW hH hlen hbound hg hn]

/-- C3 witness: a 1 x 1 frame comes back byte-identical. -/
theorem spec_C3_w :
    0 < 1 ∧ ([10, 20, 30, 40] : List Nat).length = 1 * 1 * 4 ∧
    (processFrameBytes ⟨true, true, 7⟩ 2 [10, 20, 30, 40] 1 1 false).result =
      Except.ok (some [10, 20, 30, 40]) :=
  ⟨by decide, by decide,
   spec_C3 ⟨true, true, 7⟩ 2 [10, 20, 30, 40] 1 1 (by decide) (by decide) (by decide)
     (by decide) rfl rfl⟩

/-- C4: for every valid input processed with applyEdgeDetection = true,
the returned buffer has length width * height * 4, regardless of the
input byte content. -/
theorem spec_C4 (env : JniEnv) (t : Int) (buf : List Nat) (W H : Nat)
    (hW : 0 < W) (hH : 0 < H) (hlen : buf.length = W * H * 4)
    (hbound : W * H * 4 < 2 ^ 31)
    (hg : env.getElemsOk = true) (hn : env.newArrayOk = true) :
    ∃ b, (processFrameBytes env t buf (W : Int) (H : Int) true).result =
        Except.ok (some b) ∧ b.length = W * H * 4 := by
  rw [processFrameBytes_edge env t buf W H hW hH hlen hbound hg hn]
  exact ⟨_, rfl, by rw [gray2rgbaData_length, cannyData_length]; ring⟩

/-- C4 witness: an all-zero 1 x 1 input yields a 4-byte output. -/
theorem spec_C4_w :
    0 < 1 ∧ ([0, 0, 0, 0] : List Nat).length = 1 * 1 * 4 ∧
    ∃ b, (processFrameBytes ⟨true, true, 0⟩ 0 [0, 0, 0, 0] 1 1 true).result =
        Except.ok (some b) ∧ b.length = 1 * 1 * 4 :=
  ⟨by decide, by decide,
   spec_C4 ⟨true, true, 0⟩ 0 [0, 0, 0, 0] 1 1 (by decide) (by decide) (by decide)
     (by decide) rfl rfl⟩

/-- C5: for every valid input processed with applyEdgeDetection = true,
every pixel of the returned buffer has equal Red, Green and Blue
channels, and the common value is 0 or 255, never an intermediate
value. -/
theorem spec_C5 (env : JniEnv) (t : Int) (buf : List Nat) (W H : Nat)
    (b : List Nat) (i : Nat)
    (hW : 0 < W) (hH : 0 < H) (hlen : buf.length = W * H * 4)
    (hbound : W * H * 4 < 2 ^ 31)
    (hg : env.getElemsOk = true) (hn : env.newArrayOk = true)
    (hb : (processFrameBytes env t buf (W : Int) (H : Int) true).result =
      Except.ok (some b))
    (hi : i < W * H) :
    b.getD (4 * i) 0 = b.getD (4 * i + 1) 0 ∧
    b.getD (4 * i) 0 = b.getD (4 * i + 2) 0 ∧
    (b.getD (4 * i) 0 = 0 ∨ b.getD (4 * i) 0 = 255) := by
  rw [processFrameBytes_edge env t buf W H hW hH hlen hbound hg hn] at hb
  simp only [Except.ok.injEq, Option.some.injEq] at hb
  subst hb
  set c := cannyData 50 150 H W (blurData H W (rgba2grayData buf)) with hc
  have hlc : c.length = H * W := by rw [hc]; exact cannyData_length 50 150 H W _
  have hic : i < c.length := by
    rw [hlc]
    have := Nat.mul_comm W H
    omega
  obtain ⟨g0, g1, g2, g3⟩ := gray2rgbaData_getD c i hic
  have hvmem : c.getD i 0 ∈ c := by
    rw [List.getD_eq_getElem c 0 hic]
    exact List.getElem_mem hic
  rw [hc] at hvmem
  have hv : c.getD i 0 = 0 ∨ c.getD i 0 = 255 := by
    rw [hc]
    exact cannyData_mem 50 150 H W _ _ hvmem
  exact ⟨g0.trans g1.symm, g0.trans g2.symm, g0 ▸ hv⟩

/-- C5 witness: the 1 x 1 gray input (7, 7, 7, 7) produces the no-edge
pixel (0, 0, 0, 255), whose color channels are equal and binary. -/
theorem spec_C5_w :
    (processFrameBytes ⟨true, true, 0⟩ 0 [7, 7, 7, 7] 1 1 true).result =
        Except.ok (some [0, 0, 0, 255]) ∧
    (([0, 0, 0, 255] : List Nat).getD (4 * 0) 0 =
        ([0, 0, 0, 255] : List Nat).getD (4 * 0 + 1) 0 ∧
      ([0, 0, 0, 255] : List Nat).getD (4 * 0) 0 =
        ([0, 0, 0, 255] : List Nat).getD (4 * 0 + 2) 0 ∧
      (([0, 0, 0, 255] : List Nat).getD (4 * 0) 0 = 0 ∨
        ([0, 0, 0, 255] : List Nat).getD (4 * 0) 0 = 255)) :=
  ⟨by decide,
   spec_C5 ⟨true, true, 0⟩ 0 [7, 7, 7, 7] 1 1 [0, 0, 0, 255] 0 (by decide) (by decide)
     (by decide) (by decide) rfl rfl (by decide) (by decide)⟩

/-- C6: the 4 x 4 all-red input (255, 0, 0, 255 per pixel) processed with
applyEdgeDetection = true yields the 64-byte output whose every pixel is
(0, 0, 0, 255): no edges on a flat-color image, alpha fixed opaque. -/
theorem spec_C6 :
    (processFrameBytes ⟨true, true, 0⟩ 0
        (List.flatten (List.replicate 16 [255, 0, 0, 255])) 4 4 true).result =
      Except.ok (some (List.flatten (List.replicate 16 [0, 0, 0, 255]))) := by
  decide

/-- C7: on every path — length rejection, allocation failure, escaping
exception, passthrough and edge detection — the content of the caller
input array after the call equals what was passed in. -/
theorem spec_C7 (env : JniEnv) (t : Int) (buf : List Nat)
    (width height : Int) (edge : Bool) :
    (processFrameBytes env t buf width height edge).inputAfter = buf := by
  rcases processFrameBytes_shape env t buf width height edge with hc | ⟨e, hc⟩ | ⟨_, b, hc⟩ <;>
    rw [hc]

/-- C8: getProcessingTime returns the timing state unchanged (no side
effects), the state starts at zero, every reachable value of the state is
non-negative, and the state changes only when a processFrameBytes call
completes its timing step, which happens exactly on the path that
returns a buffer. -/
theorem spec_C8 (t u : Int) (env : JniEnv) (buf : List Nat)
    (width height : Int) (edge : Bool) (hu : ReachableTime u) :
    getProcessingTime t = (t, t) ∧
    getProcessingTime 0 = (0, 0) ∧
    0 ≤ u ∧
    ((processFrameBytes env t buf width height edge).timeAfter ≠ t →
      ∃ b, (processFrameBytes env t buf width height edge).result =
          Except.ok (some b) ∧
        (processFrameBytes env t buf width height edge).timeAfter =
          (env.elapsedMs : Int)) := by
  refine ⟨rfl, rfl, reachableTime_nonneg hu, ?_⟩
  intro hne
  rcases processFrameBytes_shape env t buf width height edge with hc | ⟨e, hc⟩ | ⟨_, b, hc⟩
  · rw [hc] at hne; exact absurd rfl hne
  · rw [hc] at hne; exact absurd rfl hne
  · rw [hc]; exact ⟨b, rfl, rfl⟩

/-- C8 witness: at the initial state 0 the query returns 0 with the state
unchanged, and the reachable value 0 is non-negative. -/
theorem spec_C8_w : getProcessingTime 7 = (7, 7) ∧ (0 : Int) ≤ 0 :=
  ⟨(spec_C8 7 0 ⟨true, true, 0⟩ [] 1 1 false ReachableTime.init).1,
   (spec_C8 7 0 ⟨true, true, 0⟩ [] 1 1 false ReachableTime.init).2.2.1⟩

/-- C9: the length validation computes width * height * 4 in wrapping
32-bit arithmetic and never checks that width and height are positive:
32768 x 32768 wraps to an expected length of 0 so an empty buffer is
accepted by the step-1 check instead of rejected, 0 x 0 with an empty
buffer is accepted, and the non-positive pair (-2) x (-2) with a 16-byte
buffer is accepted. -/
theorem spec_C9 :
    wrap32 ((32768 : Int) * 32768 * 4) = 0 ∧
    (32768 : Int) * 32768 * 4 ≠ 0 ∧
    step1Rejects [] 32768 32768 = false ∧
    step1Rejects [] 0 0 = false ∧
    step1Rejects (List.replicate 16 0) (-2) (-2) = false := by
  decide

/-- C10: for every valid input processed with applyEdgeDetection = true,
the alpha byte of every returned pixel is 255 (forced opaque), including
no-edge pixels whose color channels are 0. -/
theorem spec_C10 (env : JniEnv) (t : Int) (buf : List Nat) (W H : Nat)
    (b : List Nat) (i : Nat)
    (hW : 0 < W) (hH : 0 < H) (hlen : buf.length = W * H * 4)
    (hbound : W * H * 4 < 2 ^ 31)
    (hg : env.getElemsOk = true) (hn : env.newArrayOk = true)
    (hb : (processFrameBytes env t buf (W : Int) (H : Int) true).result =
      Except.ok (some b))
    (hi : i < W * H) :
    b.getD (4 * i + 3) 0 = 255 := by
  rw [processFrameBytes_edge env t buf W H hW hH hlen hbound hg hn] at hb
  simp only [Except.ok.injEq, Option.some.injEq] at hb
  subst hb
  set c := cannyData 50 150 H W (blurData H W (rgba2grayData buf)) with hc
  have hlc : c.length = H * W := by rw [hc]; exact cannyData_length 50 150 H W _
  have hic : i < c.length := by
    rw [hlc]
    have := Nat.mul_comm W H
    omega
  exact (gray2rgbaData_getD c i hic).2.2.2

/-- C10 witness: the no-edge pixel of the 1 x 1 all-zero input has alpha
byte 255. -/
theorem spec_C10_w :
    (processFrameBytes ⟨true, true, 0⟩ 0 [0, 0, 0, 0] 1 1 true).result =
        Except.ok (some [0, 0, 0, 255]) ∧
    ([0, 0, 0, 255] : List Nat).getD (4 * 0 + 3) 0 = 255 :=
  ⟨by decide,
   spec_C10 ⟨true, true, 0⟩ 0 [0, 0, 0, 0] 1 1 [0, 0, 0, 255] 0 (by decide) (by decide)
     (by decide) (by decide) rfl rfl (by decide) (by decide)⟩

end EdgeView
